import Mathlib

/-!
# BankSheild: the analysis page (`index.js`)

A shallow embedding of the page script.  JavaScript strings are lists of
characters, JavaScript numbers that hold counts and scores are unbounded
integers (exact below `2^53`, which no feed reaches), the two globals and the
DOM nodes the script writes are the fields of one `Page` record, and every
source of randomness is an explicit argument.

The two `async` handlers are cut at their `await`s.  Each piece runs to its
end without interruption, as the event loop runs it; between two pieces any
other handler may run.  A `World` holds the page together with the handlers
that are suspended, an `Event` is what the event loop delivers next, and
`step` runs the piece of code that answers it.
-/

namespace BankSheild

/-! ## Rendering numbers -/

/-- The method `Number.prototype.toString(radix)` on a non-negative integer:
the digits of `n` in base `radix`, most significant first, `"0"` for zero.  The script
calls it with radix 16; the template literals use radix 10. -/
def toStringRadix (radix n : Nat) : List Char :=
  if _h : n < radix ∨ radix < 2 then [Nat.digitChar n]
  else toStringRadix radix (n / radix) ++ [Nat.digitChar (n % radix)]
termination_by n
decreasing_by
  simp only [not_or, not_lt] at _h
  exact Nat.div_lt_self (by omega) (by omega)

/-- The method `String.prototype.padStart(len, fill)` with a one-character filler. -/
def padStart (len : Nat) (fill : Char) (s : List Char) : List Char :=
  List.replicate (len - s.length) fill ++ s

/-- The callback of `sha256`: `b => b.toString(16).padStart(2, "0")`. -/
def byteHex (b : Nat) : List Char :=
  padStart 2 '0' (toStringRadix 16 b)

/-- The body of the `then` callback of `sha256`:
`Array.from(new Uint8Array(hash)).map(...).join("")`. -/
def hexOfDigest (hash : List Nat) : List Char :=
  (hash.map byteHex).flatten

/-- The helper `sha256(buffer)`; `digest` stands for
`crypto.subtle.digest("SHA-256", ·)`, which the browser supplies. -/
def sha256 (digest : List Nat → List Nat) (buffer : List Nat) : List Char :=
  hexOfDigest (digest buffer)

/-- Value of one base-16 character, for reading an identifier back. -/
def hexValue (c : Char) : Nat :=
  if '0' ≤ c ∧ c ≤ '9' then c.toNat - 48
  else if 'a' ≤ c ∧ c ≤ 'f' then c.toNat - 87
  else 0

/-- The characters `0-9a-f`. -/
def isLowerHex (c : Char) : Bool :=
  ('0' ≤ c ∧ c ≤ '9') ∨ ('a' ≤ c ∧ c ≤ 'f')

/-- Reading an identifier two characters at a time as base-16 numbers. -/
def readHexPairs : List Char → List Nat
  | c₁ :: c₂ :: rest => (16 * hexValue c₁ + hexValue c₂) :: readHexPairs rest
  | _ => []

/-! ## Strings -/

/-- A JavaScript string. -/
abbrev Str := List Char

/-- The method `String.prototype.endsWith(suffix)`. -/
def endsWith (s suffix : Str) : Bool :=
  suffix.isSuffixOf s

/-- The method `String.prototype.substring(a, b)`: the characters from the
smaller index up to, not including, the larger one. -/
def substring (s : Str) (a b : Nat) : Str :=
  (s.take (max a b)).drop (min a b)

/-- The method `String.prototype.replace(pattern, replacement)` with a string
pattern: only the first occurrence of `pattern` is replaced (the replacement used by the
page is the empty string, so no `$` pattern is involved). -/
def replace (pattern replacement : Str) : Str → Str
  | [] => if pattern.isPrefixOf [] then replacement else []
  | c :: t =>
    if pattern.isPrefixOf (c :: t) then replacement ++ (c :: t).drop pattern.length
    else c :: replace pattern replacement t

/-- The method `String.prototype.split(sep)` with a one-character separator. -/
def split (sep : Char) : Str → List Str
  | [] => [[]]
  | c :: t =>
    if c = sep then [] :: split sep t
    else
      match split sep t with
      | [] => [[c]]
      | part :: parts => (c :: part) :: parts

/-- Template-literal rendering of an integer-valued number. -/
def numberToString (i : Int) : Str :=
  if i < 0 then '-' :: toStringRadix 10 i.natAbs else toStringRadix 10 i.toNat

/-! ## `parseInt` -/

/-- The white space `parseInt` skips (`StrWhiteSpaceChar`). -/
def isWhiteSpace (c : Char) : Bool :=
  [0x09, 0x0A, 0x0B, 0x0C, 0x0D, 0x20, 0xA0, 0x1680, 0x2028, 0x2029, 0x202F, 0x205F,
    0x3000, 0xFEFF].contains c.toNat
  || (0x2000 ≤ c.toNat && c.toNat ≤ 0x200A)

/-- Value of a character as a digit: `0-9`, then `a-z` or `A-Z` for 10 to 35. -/
def digitValue (c : Char) : Option Nat :=
  if '0' ≤ c ∧ c ≤ '9' then some (c.toNat - 48)
  else if 'a' ≤ c ∧ c ≤ 'z' then some (c.toNat - 87)
  else if 'A' ≤ c ∧ c ≤ 'Z' then some (c.toNat - 55)
  else none

/-- The digit `c` stands for in base `radix`, if it is one. -/
def radixDigit (radix : Nat) (c : Char) : Option Nat :=
  match digitValue c with
  | some d => if d < radix then some d else none
  | none => none

/-- The longest run of base-`radix` digits at the start of a string. -/
def leadingDigits (radix : Nat) : Str → List Nat
  | [] => []
  | c :: t =>
    match radixDigit radix c with
    | some d => d :: leadingDigits radix t
    | none => []

/-- Step of `parseInt` that reads an optional sign. -/
def stripSign : Str → Bool × Str
  | [] => (false, [])
  | c :: t => if c = '-' then (true, t) else if c = '+' then (false, t) else (false, c :: t)

/-- Step of `parseInt` that, no radix being given, reads an optional `0x` or
`0X` and settles the radix. -/
def stripRadixPrefix : Str → Nat × Str
  | c₁ :: c₂ :: t =>
    if c₁ = '0' ∧ (c₂ = 'x' ∨ c₂ = 'X') then (16, t) else (10, c₁ :: c₂ :: t)
  | s => (10, s)

/-- Global `parseInt(string)` without a radix; `none` is `NaN`. -/
def parseInt (s : Str) : Option Int :=
  let signed := stripSign (s.dropWhile isWhiteSpace)
  let body := stripRadixPrefix signed.2
  match leadingDigits body.1 body.2 with
  | [] => none
  | d :: ds =>
    let value : Int :=
      List.foldl (fun (acc : Int) (x : Nat) => acc * (body.1 : Int) + (x : Int)) 0 (d :: ds)
    some (if signed.1 then -value else value)

/-- The idiom `x || 0` on a number: `NaN` and zero give `0`. -/
def orZero : Option Int → Int
  | none => 0
  | some v => if v = 0 then 0 else v

/-- The conversion `ToString` of an array element that may be missing
(`undefined`). -/
def argToString (part : Option Str) : Str :=
  part.getD "undefined".toList

/-! ## Data -/

/-- A `File` as the page uses it: its name and its bytes. -/
structure File where
  name : Str
  content : List Nat
deriving DecidableEq

/-- One element of the `indicators` array literal. -/
structure Indicator where
  name : Str
  value : Str
  weight : Nat
  status : Str
deriving DecidableEq

/-- The object `{ score, indicators }` stored in `analysisResult`. -/
structure AnalysisResult where
  score : Int
  indicators : List Indicator
deriving DecidableEq

/-- The five cells of a row of the feed table. -/
structure FeedRow where
  pkg : Str
  id : Str
  score : Str
  domain : Str
  category : Str
deriving DecidableEq

/-- The two globals of the script and the DOM state it writes. -/
structure Page where
  selectedFile : Option File
  analysisResult : Option AnalysisResult
  progressWidth : Str
  scanMetaDisplay : Str
  riskScoreText : Str
  riskSummaryText : Str
  riskBadgeClass : Str
  indicatorsTable : List (List Str)
  fileNameText : Str
  fileHashText : Str
  feedTable : List FeedRow
  distText : Str
deriving DecidableEq

/-- A JSON value, object members in insertion order (the order in which
`JSON.stringify` writes them). -/
inductive Json where
  | num : Int → Json
  | str : Str → Json
  | arr : List Json → Json
  | obj : List (Str × Json) → Json

/-- Member names of a JSON object, in order. -/
def Json.keys : Json → List Str
  | .obj members => members.map Prod.fst
  | _ => []

/-! ## Helpers of the script -/

/-- The helper `setProgress(percent)`. -/
def setProgress (p : Page) (percent : Nat) : Page :=
  { p with progressWidth := numberToString percent ++ "%".toList }

/-- The helper `resetUI()`. -/
def resetUI (p : Page) : Page :=
  let p := { p with selectedFile := none, analysisResult := none }
  let p := setProgress p 0
  { p with
    scanMetaDisplay := "none".toList
    riskScoreText := "–".toList
    riskSummaryText := "Awaiting file…".toList
    riskBadgeClass := "badge b-warn".toList
    indicatorsTable := [] }

/-! ## File handling -/

/-- Lines 70-75 of `handleFile(file)`, up to its first `await`: the page
afterwards and the alert shown, if any (the function has then returned). -/
def handleFileBegin (p : Page) (file : File) : Page × Option Str :=
  if !endsWith file.name ".apk".toList then
    (p, some "Only .apk files allowed (demo).".toList)
  else
    ({ p with selectedFile := some file, fileNameText := file.name }, none)

/-- Lines 79-81 of `handleFile(file)`, run once the buffer and its hash have
arrived: they write to the page as it is by then. -/
def handleFileResume (digest : List Nat → List Nat) (p : Page) (file : File) : Page :=
  let hash := sha256 digest file.content
  let p := { p with fileHashText := substring hash 0 32 ++ "…".toList }
  { p with scanMetaDisplay := "block".toList }

/-- The function `handleFile(file)` when nothing else runs during its two
`await`s: the page afterwards and the alert shown, if any. -/
def handleFile (digest : List Nat → List Nat) (p : Page) (file : File) : Page × Option Str :=
  if !endsWith file.name ".apk".toList then
    (p, some "Only .apk files allowed (demo).".toList)
  else
    let p := { p with selectedFile := some file, fileNameText := file.name }
    let hash := sha256 digest file.content
    let p := { p with fileHashText := substring hash 0 32 ++ "…".toList }
    ({ p with scanMetaDisplay := "block".toList }, none)

/-! ## Feed -/

/-- The category cell of the feed row:
`score >= 80 ? "Malicious" : score >= 60 ? "Suspicious" : "Clean"`. -/
def feedCategory (score : Int) : Str :=
  if score ≥ 80 then "Malicious".toList
  else if score ≥ 60 then "Suspicious".toList
  else "Clean".toList

/-- The row `updateFeed` builds; `rand16` is `Math.random().toString(16)`. -/
def feedRow (pkgName : Str) (score : Int) (rand16 : Str) : FeedRow :=
  { pkg := replace ".apk".toList [] pkgName
    id := substring rand16 2 10
    score := numberToString score
    domain := "domain[.]com".toList
    category := feedCategory score }

/-- The two counts `updateFeed` reads back from the distribution text:
`parseInt(parts[0]) || 0` and `parseInt(parts[1]) || 0`. -/
def distCounts (text : Str) : Int × Int :=
  let parts := split '/' text
  (orZero (parseInt (argToString parts[0]?)), orZero (parseInt (argToString parts[1]?)))

/-- The function `updateFeed(pkgName, score)`. -/
def updateFeed (p : Page) (pkgName : Str) (score : Int) (rand16 : Str) : Page :=
  let row := feedRow pkgName score rand16
  let p := { p with feedTable := row :: p.feedTable }
  let legit := (distCounts p.distText).1
  let bad := (distCounts p.distText).2
  let bad := if score ≥ 60 then bad + 1 else bad
  let legit := if score ≥ 60 then legit else legit + 1
  { p with distText := numberToString legit ++ " / ".toList ++ numberToString bad }

/-! ## Analysis -/

/-- The score `Math.floor(Math.random() * 100)` for the sample `r`; `rnd`
rounds the exact product to the number format (the identity in exact arithmetic). -/
def sampleScore (rnd : ℚ → ℚ) (r : ℚ) : Int :=
  Int.floor (rnd (r * 100))

/-- The `indicators` array literal of the analyze handler. -/
def indicatorsFor (score : Int) : List Indicator :=
  [ { name := "Suspicious Permission".toList
      value := "READ_SMS".toList
      weight := 15
      status := if score > 60 then "Triggered".toList else "OK".toList },
    { name := "Package Spoofing".toList
      value := "com.abcbank.mobile".toList
      weight := 20
      status := if score > 70 then "Triggered".toList else "OK".toList },
    { name := "Hardcoded URL".toList
      value := "hxxp://phish-login[.]com".toList
      weight := 25
      status := if score > 50 then "Triggered".toList else "OK".toList } ]

/-- The badge class the analyze handler sets. -/
def riskBadge (score : Int) : Str :=
  if score ≥ 80 then "badge b-bad".toList
  else if score ≥ 60 then "badge b-warn".toList
  else "badge b-ok".toList

/-- The summary text the analyze handler sets. -/
def riskSummary (score : Int) : Str :=
  if score ≥ 80 then "High risk: likely malicious.".toList
  else if score ≥ 60 then "Suspicious: investigate further.".toList
  else "Low risk: likely clean.".toList

/-- The cells of the table row appended for one indicator. -/
def indicatorRow (ind : Indicator) : List Str :=
  [ind.name, ind.value, numberToString ind.weight, ind.status]

/-- Lines 86-92 of the click handler of `btnAnalyze`, up to the first `await`
of the progress loop (reached with the loop counter `i = 0`): the page
afterwards and the alert shown, if any (the handler has then returned). -/
def btnAnalyzeBegin (p : Page) : Page × Option Str :=
  match p.selectedFile with
  | none => (p, some "Select an APK first.".toList)
  | some _ =>
    let p := setProgress p 0
    ({ p with indicatorsTable := [], riskSummaryText := "Analyzing…".toList }, none)

/-- Lines 102-149 of the click handler of `btnAnalyze`, from the point where
the score is known.  The result is stored and shown; then line 149 reads the
global `selectedFile` as it is at that moment: when it is `null`,
`selectedFile.name` throws a TypeError and `updateFeed` is not called.  Gives
the page afterwards and the uncaught error, if any. -/
def analyzeWith (p : Page) (score : Int) (rand16 : Str) : Page × Option Str :=
  let indicators := indicatorsFor score
  let p := { p with analysisResult := some { score := score, indicators := indicators } }
  let p := { p with
    riskScoreText := numberToString score
    riskBadgeClass := riskBadge score
    riskSummaryText := riskSummary score }
  let p := { p with indicatorsTable := p.indicatorsTable ++ indicators.map indicatorRow }
  match p.selectedFile with
  | none => (p, some "TypeError".toList)
  | some file => (updateFeed p file.name score rand16, none)

/-- One resumption of a suspended click handler of `btnAnalyze` whose loop
counter is `i`, after its timer has fired (lines 97-98 and on):
`setProgress(i)`, `i += 10`, then either the next `await` (the new counter is
given back) or, the loop being over, lines 101-149 with the sample `r` drawn
by `Math.random()`.  Gives the page afterwards, the counter if the handler is
suspended again, and the uncaught error, if any. -/
def btnAnalyzeResume (rnd : ℚ → ℚ) (p : Page) (i : Nat) (r : ℚ) (rand16 : Str) :
    Page × Option Nat × Option Str :=
  let p := setProgress p i
  if i + 10 ≤ 100 then (p, some (i + 10), none)
  else
    let out := analyzeWith p (sampleScore rnd r) rand16
    (out.1, none, out.2)

/-! ## Export -/

/-- The value `JSON.stringify` serialises for one indicator. -/
def indicatorJson (ind : Indicator) : Json :=
  .obj [("name".toList, .str ind.name), ("value".toList, .str ind.value),
    ("weight".toList, .num ind.weight), ("status".toList, .str ind.status)]

/-- The value `JSON.stringify(analysisResult, null, 2)` serialises. -/
def resultJson (r : AnalysisResult) : Json :=
  .obj [("score".toList, .num r.score),
    ("indicators".toList, .arr (r.indicators.map indicatorJson))]

/-- The click handler of `btnExport`: the document offered for download, or
the alert shown when there is no analysis result. -/
def btnExportClick (p : Page) : Except Str Json :=
  match p.analysisResult with
  | none => .error "No analysis result yet.".toList
  | some r => .ok (resultJson r)

/-! ## The event loop -/

/-- The page and the handlers suspended at an `await`. -/
structure World where
  /-- The globals and the DOM. -/
  page : Page
  /-- Loop counter `i` of each suspended click handler of `btnAnalyze`. -/
  analyses : List Nat
  /-- File of each suspended `handleFile` call. -/
  loads : List File
  /-- Alerts shown and uncaught errors reported so far, latest first. -/
  notices : List Str

/-- What the event loop can deliver to the page. -/
inductive Event where
  /-- A drop or a change of the file input with a first file. -/
  | fileChosen (file : File)
  /-- Buffer and hash of the `k`-th suspended `handleFile` call have arrived. -/
  | hashReady (k : Nat)
  /-- A click on `btnAnalyze`. -/
  | analyzeClick
  /-- The timer of the `k`-th suspended analyze handler fires; `r` and
  `rand16` are what `Math.random()` gives if lines 101 and 176 are reached. -/
  | timeout (k : Nat) (r : ℚ) (rand16 : Str)
  /-- A click on `btnReset`. -/
  | resetClick
  /-- A click on `btnExport`. -/
  | exportClick

/-- The piece of code that answers one event, run to its end or to its next
`await`.  An event for a handler that is not suspended changes nothing. -/
def step (digest : List Nat → List Nat) (rnd : ℚ → ℚ) (w : World) : Event → World
  | .fileChosen file =>
    match (handleFileBegin w.page file).2 with
    | some msg => { w with page := (handleFileBegin w.page file).1, notices := msg :: w.notices }
    | none => { w with page := (handleFileBegin w.page file).1, loads := w.loads ++ [file] }
  | .hashReady k =>
    match w.loads[k]? with
    | none => w
    | some file =>
      { w with page := handleFileResume digest w.page file, loads := w.loads.eraseIdx k }
  | .analyzeClick =>
    match (btnAnalyzeBegin w.page).2 with
    | some msg => { w with page := (btnAnalyzeBegin w.page).1, notices := msg :: w.notices }
    | none => { w with page := (btnAnalyzeBegin w.page).1, analyses := w.analyses ++ [0] }
  | .timeout k r rand16 =>
    match w.analyses[k]? with
    | none => w
    | some i =>
      { w with
        page := (btnAnalyzeResume rnd w.page i r rand16).1
        analyses :=
          match (btnAnalyzeResume rnd w.page i r rand16).2.1 with
          | some j => w.analyses.set k j
          | none => w.analyses.eraseIdx k
        notices := (btnAnalyzeResume rnd w.page i r rand16).2.2.toList ++ w.notices }
  | .resetClick => { w with page := resetUI w.page }
  | .exportClick =>
    match btnExportClick w.page with
    | .error msg => { w with notices := msg :: w.notices }
    | .ok _ => w

/-- The world after a sequence of events. -/
def run (digest : List Nat → List Nat) (rnd : ℚ → ℚ) (w : World) (events : List Event) :
    World :=
  events.foldl (step digest rnd) w

/-- The events of one analysis that nothing interrupts: the click and the
eleven timers of the progress loop. -/
def analysisEvents (r : ℚ) (rand16 : Str) : List Event :=
  .analyzeClick :: List.replicate 11 (.timeout 0 r rand16)

/-- The events of one analysis with a click on `btnReset` while its progress
bar is running. -/
def resetDuringAnalysis (r : ℚ) (rand16 : Str) : List Event :=
  .analyzeClick :: .resetClick :: List.replicate 11 (.timeout 0 r rand16)

/-! ## Vocabulary of the specification -/

/-- Top-level field names of the export document as the specification lists
them. -/
def specResultFields : List Str :=
  ["artifactId".toList, "score".toList, "category".toList, "indicators".toList,
    "timestamp".toList]

/-- The name without its trailing four-character `.apk` extension. -/
def dropApkExtension (name : Str) : Str :=
  name.take (name.length - 4)

/-- A sequence of `updateFeed` calls, each with its name, score and random
text. -/
def runFeed (p : Page) (calls : List (Str × Int × Str)) : Page :=
  calls.foldl (fun q c => updateFeed q c.1 c.2.1 c.2.2) p

/-- A page on which nothing has happened yet, all texts empty. -/
def blankPage : Page :=
  { selectedFile := none
    analysisResult := none
    progressWidth := []
    scanMetaDisplay := []
    riskScoreText := []
    riskSummaryText := []
    riskBadgeClass := []
    indicatorsTable := []
    fileNameText := []
    fileHashText := []
    feedTable := []
    distText := [] }

/-- A sample 32-byte digest. -/
def sampleDigest : List Nat :=
  [0, 15, 16, 171, 255, 9, 10, 128, 227, 176, 196, 66, 152, 252, 28, 20,
    154, 251, 244, 200, 153, 111, 185, 36, 39, 174, 65, 228, 100, 155, 147, 76]

/-- A sample file with an accepted name. -/
def bankApk : File :=
  { name := "bank.apk".toList, content := [80, 75, 3, 4] }

/-- The blank page after `bank.apk` has been selected. -/
def loadedPage : Page :=
  { blankPage with selectedFile := some bankApk, fileNameText := bankApk.name }

/-- The world in which `bank.apk` has been selected and nothing is suspended. -/
def loadedWorld : World :=
  { page := loadedPage, analyses := [], loads := [], notices := [] }

/-! # Theorems -/

/-! ## Lemmas on the hexadecimal rendering -/

theorem toStringRadix_lt (radix n : Nat) (h : n < radix) :
    toStringRadix radix n = [Nat.digitChar n] := by
  rw [toStringRadix]; simp [h]

theorem toStringRadix_ge (radix n : Nat) (hr : 2 ≤ radix) (h : radix ≤ n) :
    toStringRadix radix n
      = toStringRadix radix (n / radix) ++ [Nat.digitChar (n % radix)] := by
  rw [toStringRadix]
  have : ¬ (n < radix ∨ radix < 2) := by omega
  simp [this]

theorem byteHex_eq (b : Nat) (hb : b < 256) :
    byteHex b = [Nat.digitChar (b / 16), Nat.digitChar (b % 16)] := by
  unfold byteHex padStart
  by_cases h : b < 16
  · rw [toStringRadix_lt 16 b h]
    have h0 : b / 16 = 0 := Nat.div_eq_of_lt h
    have h1 : b % 16 = b := Nat.mod_eq_of_lt h
    simp [h0, h1]
    rfl
  · have h16 : 16 ≤ b := by omega
    rw [toStringRadix_ge 16 b (by omega) h16,
      toStringRadix_lt 16 (b / 16) (by omega)]
    simp

theorem hexValue_digitChar : ∀ d, d < 16 → hexValue (Nat.digitChar d) = d := by
  decide

theorem isLowerHex_digitChar : ∀ d, d < 16 → isLowerHex (Nat.digitChar d) = true := by
  decide

theorem hexOfDigest_cons (b : Nat) (bs : List Nat) :
    hexOfDigest (b :: bs) = byteHex b ++ hexOfDigest bs := by
  simp [hexOfDigest]

theorem readHexPairs_hexOfDigest (bs : List Nat) (h : ∀ b ∈ bs, b < 256) :
    readHexPairs (hexOfDigest bs) = bs := by
  induction bs with
  | nil => simp [hexOfDigest, readHexPairs]
  | cons b bs ih =>
    have hb : b < 256 := h b (List.mem_cons_self _ _)
    rw [hexOfDigest_cons, byteHex_eq b hb]
    rw [List.cons_append, List.cons_append, List.nil_append]
    simp only [readHexPairs]
    rw [ih (fun x hx => h x (List.mem_cons_of_mem _ hx)),
      hexValue_digitChar _ (by omega), hexValue_digitChar _ (Nat.mod_lt _ (by omega))]
    congr 1
    omega

theorem length_hexOfDigest (bs : List Nat) (h : ∀ b ∈ bs, b < 256) :
    (hexOfDigest bs).length = 2 * bs.length := by
  induction bs with
  | nil => simp [hexOfDigest]
  | cons b bs ih =>
    rw [hexOfDigest_cons, byteHex_eq b (h b (List.mem_cons_self _ _)), List.length_append,
      ih (fun x hx => h x (List.mem_cons_of_mem _ hx))]
    simp only [List.length_cons, List.length_nil]
    omega

theorem all_isLowerHex_hexOfDigest (bs : List Nat) (h : ∀ b ∈ bs, b < 256) :
    ∀ c ∈ hexOfDigest bs, isLowerHex c = true := by
  induction bs with
  | nil => simp [hexOfDigest]
  | cons b bs ih =>
    have hb : b < 256 := h b (List.mem_cons_self _ _)
    rw [hexOfDigest_cons, byteHex_eq b hb]
    intro c hc
    simp only [List.cons_append, List.nil_append, List.mem_cons] at hc
    rcases hc with rfl | rfl | hc
    · exact isLowerHex_digitChar _ (by omega)
    · exact isLowerHex_digitChar _ (Nat.mod_lt _ (by omega))
    · exact ih (fun x hx => h x (List.mem_cons_of_mem _ hx)) c hc

/-- C9: for a digest of `n` bytes the identifier has `2n` characters, all in
`0-9a-f`; reading it back two characters at a time returns the bytes in order;
two different digests never render alike; 32 bytes render to 64 characters. -/
theorem sha256_hex_faithful (hash : List Nat) (h : ∀ b ∈ hash, b < 256) :
    (hexOfDigest hash).length = 2 * hash.length
    ∧ (∀ c ∈ hexOfDigest hash, isLowerHex c = true)
    ∧ readHexPairs (hexOfDigest hash) = hash
    ∧ (∀ other : List Nat, (∀ b ∈ other, b < 256) →
        hexOfDigest other = hexOfDigest hash → other = hash)
    ∧ (hash.length = 32 → (hexOfDigest hash).length = 64) := by
  refine ⟨length_hexOfDigest hash h, all_isLowerHex_hexOfDigest hash h,
    readHexPairs_hexOfDigest hash h, ?_, ?_⟩
  · intro other ho heq
    rw [← readHexPairs_hexOfDigest other ho, heq, readHexPairs_hexOfDigest hash h]
  · intro h32
    rw [length_hexOfDigest hash h, h32]

theorem sha256_hex_faithful_witness :
    (∀ b ∈ sampleDigest, b < 256)
    ∧ (hexOfDigest sampleDigest).length = 2 * sampleDigest.length
    ∧ (∀ c ∈ hexOfDigest sampleDigest, isLowerHex c = true)
    ∧ readHexPairs (hexOfDigest sampleDigest) = sampleDigest
    ∧ (∀ other : List Nat, (∀ b ∈ other, b < 256) →
        hexOfDigest other = hexOfDigest sampleDigest → other = sampleDigest)
    ∧ (sampleDigest.length = 32 → (hexOfDigest sampleDigest).length = 64) :=
  ⟨by decide, sha256_hex_faithful sampleDigest (by decide)⟩

/-! ## Classification thresholds -/

theorem category_strings_distinct :
    "Malicious".toList ≠ "Suspicious".toList ∧ "Malicious".toList ≠ "Clean".toList
    ∧ "Suspicious".toList ≠ "Clean".toList := by
  decide

theorem summary_strings_distinct :
    "High risk: likely malicious.".toList ≠ "Suspicious: investigate further.".toList
    ∧ "High risk: likely malicious.".toList ≠ "Low risk: likely clean.".toList
    ∧ "Suspicious: investigate further.".toList ≠ "Low risk: likely clean.".toList := by
  decide

theorem feedCategory_malicious (score : Int) :
    feedCategory score = "Malicious".toList ↔ score ≥ 80 := by
  obtain ⟨h₁, h₂, _⟩ := category_strings_distinct
  unfold feedCategory
  split_ifs with h80 h60
  · simp [h80]
  · simp [h80, h₁.symm]
  · simp [h80, h₂.symm]

theorem feedCategory_suspicious (score : Int) :
    feedCategory score = "Suspicious".toList ↔ 60 ≤ score ∧ score < 80 := by
  obtain ⟨h₁, _, h₃⟩ := category_strings_distinct
  unfold feedCategory
  split_ifs with h80 h60
  · simp only [h₁, false_iff]; omega
  · simp only [true_iff]; omega
  · simp only [h₃.symm, false_iff]; omega

theorem feedCategory_clean (score : Int) :
    feedCategory score = "Clean".toList ↔ score < 60 := by
  obtain ⟨_, h₂, h₃⟩ := category_strings_distinct
  unfold feedCategory
  split_ifs with h80 h60
  · simp only [h₂, false_iff]; omega
  · simp only [h₃, false_iff]; omega
  · simp only [true_iff]; omega

theorem riskSummary_malicious (score : Int) :
    riskSummary score = "High risk: likely malicious.".toList ↔ score ≥ 80 := by
  obtain ⟨h₁, h₂, _⟩ := summary_strings_distinct
  unfold riskSummary
  split_ifs with h80 h60
  · simp [h80]
  · simp [h80, h₁.symm]
  · simp [h80, h₂.symm]

theorem riskSummary_suspicious (score : Int) :
    riskSummary score = "Suspicious: investigate further.".toList ↔ 60 ≤ score ∧ score < 80 := by
  obtain ⟨h₁, _, h₃⟩ := summary_strings_distinct
  unfold riskSummary
  split_ifs with h80 h60
  · simp only [h₁, false_iff]; omega
  · simp only [true_iff]; omega
  · simp only [h₃.symm, false_iff]; omega

theorem riskSummary_clean (score : Int) :
    riskSummary score = "Low risk: likely clean.".toList ↔ score < 60 := by
  obtain ⟨_, h₂, h₃⟩ := summary_strings_distinct
  unfold riskSummary
  split_ifs with h80 h60
  · simp only [h₂, false_iff]; omega
  · simp only [h₃, false_iff]; omega
  · simp only [true_iff]; omega

theorem updateFeed_feedTable (p : Page) (pkgName : Str) (score : Int) (rand16 : Str) :
    (updateFeed p pkgName score rand16).feedTable
      = feedRow pkgName score rand16 :: p.feedTable := rfl

theorem analyzeWith_riskSummaryText (p : Page) (score : Int) (rand16 : Str) :
    (analyzeWith p score rand16).1.riskSummaryText = riskSummary score := by
  unfold analyzeWith
  cases hsel : p.selectedFile with
  | none => simp only [hsel]
  | some file =>
    simp only [hsel]
    rfl

theorem analyzeWith_riskScoreText (p : Page) (score : Int) (rand16 : Str) :
    (analyzeWith p score rand16).1.riskScoreText = numberToString score := by
  unfold analyzeWith
  cases hsel : p.selectedFile with
  | none => simp only [hsel]
  | some file =>
    simp only [hsel]
    rfl

theorem analyzeWith_analysisResult (p : Page) (score : Int) (rand16 : Str) :
    (analyzeWith p score rand16).1.analysisResult
      = some { score := score, indicators := indicatorsFor score } := by
  unfold analyzeWith
  cases hsel : p.selectedFile with
  | none => simp only [hsel]
  | some file =>
    simp only [hsel]
    rfl

theorem analyzeWith_selected (p : Page) (file : File) (score : Int) (rand16 : Str)
    (hsel : p.selectedFile = some file) :
    (analyzeWith p score rand16).1.feedTable = feedRow file.name score rand16 :: p.feedTable
    ∧ (analyzeWith p score rand16).2 = none := by
  cases p
  cases hsel
  exact ⟨rfl, rfl⟩

theorem analyzeWith_unselected (p : Page) (score : Int) (rand16 : Str)
    (hsel : p.selectedFile = none) :
    (analyzeWith p score rand16).1.feedTable = p.feedTable
    ∧ (analyzeWith p score rand16).2 = some "TypeError".toList := by
  cases p
  cases hsel
  exact ⟨rfl, rfl⟩

/-- C1: for every integer score the category cell of the row `updateFeed`
puts in the feed is Malicious exactly when `score >= 80`, Suspicious exactly
when `60 <= score < 80` and Clean exactly when `score < 60` (59 Clean, 60 and
79 Suspicious, 80 Malicious), and the summary the analyze handler shows for
that score, whatever the page it resumes on, is of the same class. -/
theorem category_matches_thresholds (p : Page) (file : File) (score : Int) (rand16 : Str) :
    (updateFeed p file.name score rand16).feedTable
        = feedRow file.name score rand16 :: p.feedTable
    ∧ ((feedRow file.name score rand16).category = "Malicious".toList ↔ score ≥ 80)
    ∧ ((feedRow file.name score rand16).category = "Suspicious".toList
        ↔ 60 ≤ score ∧ score < 80)
    ∧ ((feedRow file.name score rand16).category = "Clean".toList ↔ score < 60)
    ∧ feedCategory 59 = "Clean".toList ∧ feedCategory 60 = "Suspicious".toList
    ∧ feedCategory 79 = "Suspicious".toList ∧ feedCategory 80 = "Malicious".toList
    ∧ ((analyzeWith p score rand16).1.riskSummaryText = "High risk: likely malicious.".toList
        ↔ (feedRow file.name score rand16).category = "Malicious".toList)
    ∧ ((analyzeWith p score rand16).1.riskSummaryText
          = "Suspicious: investigate further.".toList
        ↔ (feedRow file.name score rand16).category = "Suspicious".toList)
    ∧ ((analyzeWith p score rand16).1.riskSummaryText = "Low risk: likely clean.".toList
        ↔ (feedRow file.name score rand16).category = "Clean".toList) := by
  have hcat : (feedRow file.name score rand16).category = feedCategory score := rfl
  rw [hcat, analyzeWith_riskSummaryText]
  refine ⟨rfl, feedCategory_malicious score, feedCategory_suspicious score,
    feedCategory_clean score, by decide, by decide, by decide, by decide, ?_, ?_, ?_⟩
  · rw [riskSummary_malicious, feedCategory_malicious]
  · rw [riskSummary_suspicious, feedCategory_suspicious]
  · rw [riskSummary_clean, feedCategory_clean]

/-! ## The analyze handler, piece by piece -/

theorem ok_ne_triggered : "OK".toList ≠ "Triggered".toList := by
  decide

theorem none_triggered_iff (score : Int) :
    (∀ ind ∈ indicatorsFor score, ind.status ≠ "Triggered".toList) ↔ score ≤ 50 := by
  have hne := ok_ne_triggered
  simp only [indicatorsFor, List.mem_cons, List.mem_singleton, List.not_mem_nil, or_false,
    forall_eq_or_imp, forall_eq]
  constructor
  · rintro ⟨_, _, h₃⟩
    by_contra hgt
    have h50 : score > 50 := by omega
    simp [h50] at h₃
  · intro hle
    have h60 : ¬ score > 60 := by omega
    have h70 : ¬ score > 70 := by omega
    have h50 : ¬ score > 50 := by omega
    simp [h60, h70, h50, hne]

theorem all_triggered_iff (score : Int) :
    (∀ ind ∈ indicatorsFor score, ind.status = "Triggered".toList) ↔ score > 70 := by
  have hne := ok_ne_triggered
  simp only [indicatorsFor, List.mem_cons, List.mem_singleton, List.not_mem_nil, or_false,
    forall_eq_or_imp, forall_eq]
  constructor
  · rintro ⟨_, h₂, _⟩
    by_contra hle
    simp [hle, hne] at h₂
  · intro hgt
    have h60 : score > 60 := by omega
    have h50 : score > 50 := by omega
    simp [h60, hgt, h50]

theorem step_timeout_loop (digest : List Nat → List Nat) (rnd : ℚ → ℚ) (w : World) (i : Nat)
    (r : ℚ) (rand16 : Str) (hone : w.analyses = [i]) (hi : i + 10 ≤ 100) :
    step digest rnd w (.timeout 0 r rand16)
      = { w with page := setProgress w.page i, analyses := [i + 10] } := by
  simp [step, hone, btnAnalyzeResume, hi]

theorem step_timeout_last (digest : List Nat → List Nat) (rnd : ℚ → ℚ) (w : World) (i : Nat)
    (r : ℚ) (rand16 : Str) (hone : w.analyses = [i]) (hi : ¬ i + 10 ≤ 100) :
    step digest rnd w (.timeout 0 r rand16)
      = { w with
          page := (analyzeWith (setProgress w.page i) (sampleScore rnd r) rand16).1
          analyses := []
          notices :=
            (analyzeWith (setProgress w.page i) (sampleScore rnd r) rand16).2.toList
              ++ w.notices } := by
  simp [step, hone, btnAnalyzeResume, hi]

theorem run_timers (digest : List Nat → List Nat) (rnd : ℚ → ℚ) (r : ℚ) (rand16 : Str)
    (n : Nat) :
    ∀ (w : World) (i : Nat), w.analyses = [i] → i + 10 * n = 100 →
      ∃ width : Str,
        run digest rnd w (List.replicate (n + 1) (.timeout 0 r rand16))
          = { w with
              page := (analyzeWith { w.page with progressWidth := width }
                (sampleScore rnd r) rand16).1
              analyses := []
              notices :=
                (analyzeWith { w.page with progressWidth := width }
                  (sampleScore rnd r) rand16).2.toList ++ w.notices } := by
  induction n with
  | zero =>
    intro w i hone hi
    refine ⟨numberToString (i : Nat) ++ "%".toList, ?_⟩
    have hlast := step_timeout_last digest rnd w i r rand16 hone (by omega)
    simp only [run, List.replicate, List.foldl_cons, List.foldl_nil, Nat.zero_add]
    rw [hlast]
    rfl
  | succ n ih =>
    intro w i hone hi
    have hloop := step_timeout_loop digest rnd w i r rand16 hone (by omega)
    obtain ⟨width, hrun⟩ := ih { w with page := setProgress w.page i, analyses := [i + 10] }
      (i + 10) rfl (by omega)
    refine ⟨width, ?_⟩
    rw [List.replicate_succ, run, List.foldl_cons, hloop]
    exact hrun

theorem run_analysisEvents (digest : List Nat → List Nat) (rnd : ℚ → ℚ) (w : World)
    (file : File) (r : ℚ) (rand16 : Str) (hnone : w.analyses = [])
    (hsel : w.page.selectedFile = some file) :
    (run digest rnd w (analysisEvents r rand16)).page.analysisResult
        = some { score := sampleScore rnd r, indicators := indicatorsFor (sampleScore rnd r) }
    ∧ (run digest rnd w (analysisEvents r rand16)).page.feedTable
        = feedRow file.name (sampleScore rnd r) rand16 :: w.page.feedTable
    ∧ (run digest rnd w (analysisEvents r rand16)).page.riskSummaryText
        = riskSummary (sampleScore rnd r)
    ∧ (run digest rnd w (analysisEvents r rand16)).notices = w.notices := by
  have hclick : step digest rnd w .analyzeClick
      = { w with page := (btnAnalyzeBegin w.page).1, analyses := [0] } := by
    simp [step, btnAnalyzeBegin, hsel, hnone]
  obtain ⟨width, hrun⟩ := run_timers digest rnd r rand16 10
    { w with page := (btnAnalyzeBegin w.page).1, analyses := [0] } 0 rfl (by norm_num)
  have hpage : (btnAnalyzeBegin w.page).1.selectedFile = some file := by
    simp [btnAnalyzeBegin, hsel, setProgress]
  have hfeed : (btnAnalyzeBegin w.page).1.feedTable = w.page.feedTable := by
    simp [btnAnalyzeBegin, hsel, setProgress]
  have hwhole : run digest rnd w (analysisEvents r rand16)
      = run digest rnd { w with page := (btnAnalyzeBegin w.page).1, analyses := [0] }
          (List.replicate (10 + 1) (.timeout 0 r rand16)) := by
    rw [analysisEvents, run, List.foldl_cons, hclick]
    rfl
  rw [hwhole, hrun]
  have htail := analyzeWith_selected
    { (btnAnalyzeBegin w.page).1 with progressWidth := width } file (sampleScore rnd r) rand16
    hpage
  refine ⟨analyzeWith_analysisResult _ _ _, ?_, analyzeWith_riskSummaryText _ _ _, ?_⟩
  · show (analyzeWith _ _ _).1.feedTable = _
    rw [htail.1]
    exact congrArg _ hfeed
  · show (analyzeWith _ _ _).2.toList ++ w.notices = w.notices
    rw [htail.2]
    rfl

theorem run_resetDuringAnalysis (digest : List Nat → List Nat) (rnd : ℚ → ℚ) (w : World)
    (file : File) (r : ℚ) (rand16 : Str) (hnone : w.analyses = [])
    (hsel : w.page.selectedFile = some file) :
    (run digest rnd w (resetDuringAnalysis r rand16)).page.analysisResult
        = some { score := sampleScore rnd r, indicators := indicatorsFor (sampleScore rnd r) }
    ∧ (run digest rnd w (resetDuringAnalysis r rand16)).page.feedTable = w.page.feedTable
    ∧ (run digest rnd w (resetDuringAnalysis r rand16)).page.riskSummaryText
        = riskSummary (sampleScore rnd r)
    ∧ (run digest rnd w (resetDuringAnalysis r rand16)).page.riskScoreText
        = numberToString (sampleScore rnd r)
    ∧ (run digest rnd w (resetDuringAnalysis r rand16)).notices
        = "TypeError".toList :: w.notices := by
  have hclick : step digest rnd w .analyzeClick
      = { w with page := (btnAnalyzeBegin w.page).1, analyses := [0] } := by
    simp [step, btnAnalyzeBegin, hsel, hnone]
  obtain ⟨width, hrun⟩ := run_timers digest rnd r rand16 10
    { w with page := resetUI (btnAnalyzeBegin w.page).1, analyses := [0] } 0 rfl (by norm_num)
  have hfeed : (resetUI (btnAnalyzeBegin w.page).1).feedTable = w.page.feedTable := by
    simp [btnAnalyzeBegin, hsel, setProgress, resetUI]
  have hwhole : run digest rnd w (resetDuringAnalysis r rand16)
      = run digest rnd { w with page := resetUI (btnAnalyzeBegin w.page).1, analyses := [0] }
          (List.replicate (10 + 1) (.timeout 0 r rand16)) := by
    rw [resetDuringAnalysis, run, List.foldl_cons, hclick, List.foldl_cons]
    rfl
  rw [hwhole, hrun]
  have htail := analyzeWith_unselected
    { resetUI (btnAnalyzeBegin w.page).1 with progressWidth := width } (sampleScore rnd r)
    rand16 rfl
  refine ⟨analyzeWith_analysisResult _ _ _, ?_, analyzeWith_riskSummaryText _ _ _,
    analyzeWith_riskScoreText _ _ _, ?_⟩
  · show (analyzeWith _ _ _).1.feedTable = _
    rw [htail.1]
    exact hfeed
  · show (analyzeWith _ _ _).2.toList ++ w.notices = _
    rw [htail.2]
    rfl

theorem sampleScore_exact_three_tenths : sampleScore id (3 / 10) = 30 := by
  simp [sampleScore]; norm_num

theorem sampleScore_exact_three_quarters : sampleScore id (3 / 4) = 75 := by
  simp [sampleScore]; norm_num

/-- C3, as stated, fails: the analysis of `bank.apk` that nothing interrupts,
with the sample `0.3`, stores a result none of whose indicators is Triggered,
yet its score is 30, not 0. -/
theorem untriggered_run_score_thirty :
    ∃ res : AnalysisResult,
      (run id id loadedWorld
          (analysisEvents (3 / 10) "0.8f3a9c2e1b".toList)).page.analysisResult = some res
      ∧ (∀ ind ∈ res.indicators, ind.status ≠ "Triggered".toList)
      ∧ res.score = 30
      ∧ ¬ (res.score = 0) := by
  refine ⟨{ score := 30, indicators := indicatorsFor 30 }, ?_, by decide, rfl, by decide⟩
  rw [(run_analysisEvents id id loadedWorld bankApk (3 / 10) _ rfl rfl).1,
    sampleScore_exact_three_tenths]

/-- C3, amended: when none of the three indicators of a run has status
Triggered, the stored result has a score of at most 50, the summary shown is
the clean one and the category written to the feed (the row is written when a
file is selected at that moment) is Clean. -/
theorem untriggered_run_is_clean (p : Page) (file : File) (score : Int) (rand16 : Str)
    (h : ∀ ind ∈ indicatorsFor score, ind.status ≠ "Triggered".toList) :
    (analyzeWith p score rand16).1.analysisResult
        = some { score := score, indicators := indicatorsFor score }
    ∧ score ≤ 50
    ∧ (p.selectedFile = some file →
        (analyzeWith p score rand16).1.feedTable
          = feedRow file.name score rand16 :: p.feedTable)
    ∧ (feedRow file.name score rand16).category = "Clean".toList
    ∧ (analyzeWith p score rand16).1.riskSummaryText = "Low risk: likely clean.".toList := by
  have h50 : score ≤ 50 := (none_triggered_iff score).1 h
  refine ⟨analyzeWith_analysisResult p score rand16, h50,
    fun hsel => (analyzeWith_selected p file score rand16 hsel).1, ?_, ?_⟩
  · exact (feedCategory_clean score).2 (by omega)
  · rw [analyzeWith_riskSummaryText]
    exact (riskSummary_clean score).2 (by omega)

theorem untriggered_run_is_clean_witness :
    (∀ ind ∈ indicatorsFor 30, ind.status ≠ "Triggered".toList)
    ∧ (analyzeWith loadedPage 30 "0.8f3a9c2e1b".toList).1.analysisResult
        = some { score := 30, indicators := indicatorsFor 30 }
    ∧ (30 : Int) ≤ 50
    ∧ (analyzeWith loadedPage 30 "0.8f3a9c2e1b".toList).1.feedTable
        = feedRow bankApk.name 30 "0.8f3a9c2e1b".toList :: loadedPage.feedTable
    ∧ (feedRow bankApk.name 30 "0.8f3a9c2e1b".toList).category = "Clean".toList
    ∧ (analyzeWith loadedPage 30 "0.8f3a9c2e1b".toList).1.riskSummaryText
        = "Low risk: likely clean.".toList :=
  have hrun := untriggered_run_is_clean loadedPage bankApk 30 "0.8f3a9c2e1b".toList (by decide)
  ⟨by decide, hrun.1, hrun.2.1, hrun.2.2.1 rfl, hrun.2.2.2⟩

/-- C4, as stated, fails: the analysis of `bank.apk` that nothing interrupts,
with the sample `0.75`, stores a result (score 75) all three of whose
indicators are Triggered, and the category written to the feed is Suspicious,
not Malicious. -/
theorem all_triggered_run_suspicious :
    ∃ (res : AnalysisResult) (row : FeedRow),
      (run id id loadedWorld
          (analysisEvents (3 / 4) "0.8f3a9c2e1b".toList)).page.analysisResult = some res
      ∧ res.indicators.length = 3
      ∧ (∀ ind ∈ res.indicators, ind.status = "Triggered".toList)
      ∧ (run id id loadedWorld
          (analysisEvents (3 / 4) "0.8f3a9c2e1b".toList)).page.feedTable = [row]
      ∧ row.category = "Suspicious".toList
      ∧ ¬ (row.category = "Malicious".toList) := by
  refine ⟨{ score := 75, indicators := indicatorsFor 75 },
    feedRow bankApk.name 75 "0.8f3a9c2e1b".toList, ?_, rfl, by decide, ?_, by decide, by decide⟩
  · rw [(run_analysisEvents id id loadedWorld bankApk (3 / 4) _ rfl rfl).1,
      sampleScore_exact_three_quarters]
  · rw [(run_analysisEvents id id loadedWorld bankApk (3 / 4) _ rfl rfl).2.1,
      sampleScore_exact_three_quarters]
    rfl

/-- C4, amended: when all three indicators of a run have status Triggered,
the score is above 70 and the category written to the feed (the row is
written when a file is selected at that moment) is Suspicious or Malicious,
Malicious exactly when the score is at least 80. -/
theorem all_triggered_run_flagged (p : Page) (file : File) (score : Int) (rand16 : Str)
    (h : ∀ ind ∈ indicatorsFor score, ind.status = "Triggered".toList) :
    (analyzeWith p score rand16).1.analysisResult
        = some { score := score, indicators := indicatorsFor score }
    ∧ score > 70
    ∧ (p.selectedFile = some file →
        (analyzeWith p score rand16).1.feedTable
          = feedRow file.name score rand16 :: p.feedTable)
    ∧ ((feedRow file.name score rand16).category = "Suspicious".toList
        ∨ (feedRow file.name score rand16).category = "Malicious".toList)
    ∧ ((feedRow file.name score rand16).category = "Malicious".toList ↔ score ≥ 80) := by
  have h70 : score > 70 := (all_triggered_iff score).1 h
  refine ⟨analyzeWith_analysisResult p score rand16, h70,
    fun hsel => (analyzeWith_selected p file score rand16 hsel).1, ?_,
    feedCategory_malicious score⟩
  by_cases h80 : score ≥ 80
  · exact Or.inr ((feedCategory_malicious score).2 h80)
  · exact Or.inl ((feedCategory_suspicious score).2 (by omega))

theorem all_triggered_run_flagged_witness :
    (∀ ind ∈ indicatorsFor 91, ind.status = "Triggered".toList)
    ∧ (analyzeWith loadedPage 91 "0.8f3a9c2e1b".toList).1.analysisResult
        = some { score := 91, indicators := indicatorsFor 91 }
    ∧ (91 : Int) > 70
    ∧ (analyzeWith loadedPage 91 "0.8f3a9c2e1b".toList).1.feedTable
        = feedRow bankApk.name 91 "0.8f3a9c2e1b".toList :: loadedPage.feedTable
    ∧ ((feedRow bankApk.name 91 "0.8f3a9c2e1b".toList).category = "Suspicious".toList
        ∨ (feedRow bankApk.name 91 "0.8f3a9c2e1b".toList).category = "Malicious".toList)
    ∧ ((feedRow bankApk.name 91 "0.8f3a9c2e1b".toList).category = "Malicious".toList
        ↔ (91 : Int) ≥ 80) :=
  have hrun := all_triggered_run_flagged loadedPage bankApk 91 "0.8f3a9c2e1b".toList (by decide)
  ⟨by decide, hrun.1, hrun.2.1, hrun.2.2.1 rfl, hrun.2.2.2⟩

/-! ## The score -/

theorem rounded_product_bounds (rnd : ℚ → ℚ) (hmono : Monotone rnd) (h0 : rnd 0 = 0)
    (h100 : rnd 100 = 100) (r : ℚ) (hr0 : 0 ≤ r) (hr1 : r < 1) :
    0 ≤ rnd (r * 100) ∧ rnd (r * 100) ≤ 100 := by
  constructor
  · have hstep : rnd 0 ≤ rnd (r * 100) := hmono (by linarith)
    rwa [h0] at hstep
  · have hstep : rnd (r * 100) ≤ rnd 100 := hmono (by linarith)
    rwa [h100] at hstep

theorem floor_in_range (x : ℚ) (hlo : 0 ≤ x) (hhi : x ≤ 100) :
    0 ≤ Int.floor x ∧ Int.floor x ≤ 100 := by
  constructor
  · exact Int.floor_nonneg.2 hlo
  · have hfl : ((Int.floor x : Int) : ℚ) ≤ 100 := le_trans (Int.floor_le _) hhi
    exact_mod_cast hfl

/-- C6: for every sample `r` with `0 <= r < 1` the score
`Math.floor(r * 100)` of the analyze handler is an integer between 0 and 100,
whether the product is exact or rounded to the nearest representable number
(rounding is monotone and leaves 0 and 100 as they are). -/
theorem sampleScore_bounds (rnd : ℚ → ℚ) (hmono : Monotone rnd) (h0 : rnd 0 = 0)
    (h100 : rnd 100 = 100) (r : ℚ) (hr0 : 0 ≤ r) (hr1 : r < 1) :
    0 ≤ sampleScore rnd r ∧ sampleScore rnd r ≤ 100 := by
  unfold sampleScore
  obtain ⟨hlo, hhi⟩ := rounded_product_bounds rnd hmono h0 h100 r hr0 hr1
  exact floor_in_range _ hlo hhi

theorem sampleScore_bounds_witness :
    Monotone (id : ℚ → ℚ) ∧ (id (0 : ℚ) = 0) ∧ (id (100 : ℚ) = 100)
    ∧ (0 : ℚ) ≤ 3 / 10 ∧ (3 / 10 : ℚ) < 1
    ∧ 0 ≤ sampleScore id (3 / 10) ∧ sampleScore id (3 / 10) ≤ 100 :=
  ⟨monotone_id, rfl, rfl, by norm_num, by norm_num,
    sampleScore_bounds id monotone_id rfl rfl (3 / 10) (by norm_num) (by norm_num)⟩

/-! ## What one event can do to the stored result and to the feed -/

theorem handleFileBegin_keeps (p : Page) (file : File) :
    (handleFileBegin p file).1.analysisResult = p.analysisResult
    ∧ (handleFileBegin p file).1.feedTable = p.feedTable := by
  unfold handleFileBegin
  split_ifs <;> exact ⟨rfl, rfl⟩

theorem btnAnalyzeBegin_keeps (p : Page) :
    (btnAnalyzeBegin p).1.analysisResult = p.analysisResult
    ∧ (btnAnalyzeBegin p).1.feedTable = p.feedTable := by
  unfold btnAnalyzeBegin
  split <;> exact ⟨rfl, rfl⟩

theorem analyzeWith_feedTable (p : Page) (score : Int) (rand16 : Str) :
    (analyzeWith p score rand16).1.feedTable = p.feedTable
    ∨ ∃ row, (analyzeWith p score rand16).1.feedTable = row :: p.feedTable := by
  cases hsel : p.selectedFile with
  | none => exact Or.inl (analyzeWith_unselected p score rand16 hsel).1
  | some file => exact Or.inr ⟨_, (analyzeWith_selected p file score rand16 hsel).1⟩

theorem btnAnalyzeResume_page (rnd : ℚ → ℚ) (p : Page) (i : Nat) (r : ℚ) (rand16 : Str) :
    (btnAnalyzeResume rnd p i r rand16).1 = setProgress p i
    ∨ (btnAnalyzeResume rnd p i r rand16).1
        = (analyzeWith (setProgress p i) (sampleScore rnd r) rand16).1 := by
  unfold btnAnalyzeResume
  split_ifs
  · exact Or.inl rfl
  · exact Or.inr rfl

theorem step_page (digest : List Nat → List Nat) (rnd : ℚ → ℚ) (w : World) (e : Event) :
    (step digest rnd w e).page = w.page
    ∨ (∃ file, (step digest rnd w e).page = (handleFileBegin w.page file).1)
    ∨ (∃ file, (step digest rnd w e).page = handleFileResume digest w.page file)
    ∨ (step digest rnd w e).page = (btnAnalyzeBegin w.page).1
    ∨ (∃ i, (step digest rnd w e).page = setProgress w.page i)
    ∨ (∃ i k r rand16, e = .timeout k r rand16
        ∧ (step digest rnd w e).page
          = (analyzeWith (setProgress w.page i) (sampleScore rnd r) rand16).1)
    ∨ (step digest rnd w e).page = resetUI w.page := by
  cases e with
  | fileChosen file =>
    refine Or.inr (Or.inl ⟨file, ?_⟩)
    simp only [step]
    split <;> rfl
  | hashReady k =>
    simp only [step]
    split
    · exact Or.inl rfl
    · exact Or.inr (Or.inr (Or.inl ⟨_, rfl⟩))
  | analyzeClick =>
    refine Or.inr (Or.inr (Or.inr (Or.inl ?_)))
    simp only [step]
    split <;> rfl
  | timeout k r rand16 =>
    simp only [step]
    split
    · exact Or.inl rfl
    · rename_i i _
      rcases btnAnalyzeResume_page rnd w.page i r rand16 with hp | hp
      · exact Or.inr (Or.inr (Or.inr (Or.inr (Or.inl ⟨i, hp⟩))))
      · exact Or.inr (Or.inr (Or.inr (Or.inr (Or.inr (Or.inl ⟨i, k, r, rand16, rfl, hp⟩)))))
  | resetClick =>
    exact Or.inr (Or.inr (Or.inr (Or.inr (Or.inr (Or.inr rfl)))))
  | exportClick =>
    refine Or.inl ?_
    simp only [step]
    split <;> rfl

theorem step_feedTable (digest : List Nat → List Nat) (rnd : ℚ → ℚ) (w : World) (e : Event) :
    (step digest rnd w e).page.feedTable = w.page.feedTable
    ∨ ∃ row, (step digest rnd w e).page.feedTable = row :: w.page.feedTable := by
  rcases step_page digest rnd w e with h | ⟨file, h⟩ | ⟨file, h⟩ | h | ⟨i, h⟩
    | ⟨i, k, r, rand16, _, h⟩ | h
  · exact Or.inl (by rw [h])
  · exact Or.inl (by rw [h]; exact (handleFileBegin_keeps w.page file).2)
  · exact Or.inl (by rw [h]; rfl)
  · exact Or.inl (by rw [h]; exact (btnAnalyzeBegin_keeps w.page).2)
  · exact Or.inl (by rw [h]; rfl)
  · rw [h]
    exact analyzeWith_feedTable (setProgress w.page i) (sampleScore rnd r) rand16
  · exact Or.inl (by rw [h]; rfl)

theorem resetUI_feedTable (p : Page) : (resetUI p).feedTable = p.feedTable := rfl

theorem step_analysisResult (digest : List Nat → List Nat) (rnd : ℚ → ℚ) (w : World)
    (e : Event) :
    (step digest rnd w e).page.analysisResult = w.page.analysisResult
    ∨ (step digest rnd w e).page.analysisResult = none
    ∨ ∃ k r rand16, e = .timeout k r rand16
        ∧ (step digest rnd w e).page.analysisResult
          = some { score := sampleScore rnd r,
                   indicators := indicatorsFor (sampleScore rnd r) } := by
  rcases step_page digest rnd w e with h | ⟨file, h⟩ | ⟨file, h⟩ | h | ⟨i, h⟩
    | ⟨i, k, r, rand16, he, h⟩ | h
  · exact Or.inl (by rw [h])
  · exact Or.inl (by rw [h]; exact (handleFileBegin_keeps w.page file).1)
  · exact Or.inl (by rw [h]; rfl)
  · exact Or.inl (by rw [h]; exact (btnAnalyzeBegin_keeps w.page).1)
  · exact Or.inl (by rw [h]; rfl)
  · exact Or.inr (Or.inr ⟨k, r, rand16, he, by rw [h]; exact analyzeWith_analysisResult _ _ _⟩)
  · exact Or.inr (Or.inl (by rw [h]; rfl))

/-! ## Export -/

theorem indicatorsFor_json (score : Int) :
    ∀ j ∈ (indicatorsFor score).map indicatorJson,
      j.keys = ["name".toList, "value".toList, "weight".toList, "status".toList]
      ∧ ∃ (n v : Str) (w : Int) (st : Str),
          j = .obj [("name".toList, .str n), ("value".toList, .str v),
            ("weight".toList, .num w), ("status".toList, .str st)]
          ∧ (st = "Triggered".toList ∨ st = "OK".toList) := by
  intro j hj
  simp only [indicatorsFor, List.map_cons, List.map_nil, List.mem_cons, List.mem_singleton,
    List.not_mem_nil, or_false] at hj
  rcases hj with rfl | rfl | rfl
  · refine ⟨rfl, _, _, _, _, rfl, ?_⟩
    by_cases h : score > 60 <;> simp [h]
  · refine ⟨rfl, _, _, _, _, rfl, ?_⟩
    by_cases h : score > 70 <;> simp [h]
  · refine ⟨rfl, _, _, _, _, rfl, ?_⟩
    by_cases h : score > 50 <;> simp [h]

theorem run_result_in_range (digest : List Nat → List Nat) (rnd : ℚ → ℚ)
    (hmono : Monotone rnd) (h0 : rnd 0 = 0) (h100 : rnd 100 = 100) (events : List Event) :
    ∀ w : World,
      (∀ res, w.page.analysisResult = some res →
        0 ≤ res.score ∧ res.score ≤ 100 ∧ res.indicators = indicatorsFor res.score) →
      (∀ k r rand16, Event.timeout k r rand16 ∈ events → 0 ≤ r ∧ r < 1) →
      ∀ res, (run digest rnd w events).page.analysisResult = some res →
        0 ≤ res.score ∧ res.score ≤ 100 ∧ res.indicators = indicatorsFor res.score := by
  induction events with
  | nil =>
    intro w hinv _ res hres
    exact hinv res hres
  | cons e events ih =>
    intro w hinv hsamples
    have hnext : ∀ res, (step digest rnd w e).page.analysisResult = some res →
        0 ≤ res.score ∧ res.score ≤ 100 ∧ res.indicators = indicatorsFor res.score := by
      intro res hres
      rcases step_analysisResult digest rnd w e with h | h | ⟨k, r, rand16, he, h⟩
      · exact hinv res (by rw [← h]; exact hres)
      · rw [h] at hres
        exact absurd hres (by simp)
      · rw [h] at hres
        obtain ⟨hr0, hr1⟩ := hsamples k r rand16 (by rw [he]; exact List.mem_cons_self _ _)
        obtain ⟨hlo, hhi⟩ := rounded_product_bounds rnd hmono h0 h100 r hr0 hr1
        have hrange : 0 ≤ sampleScore rnd r ∧ sampleScore rnd r ≤ 100 :=
          floor_in_range _ hlo hhi
        cases hres
        exact ⟨hrange.1, hrange.2, rfl⟩
    exact ih (step digest rnd w e) hnext
      (fun k r rand16 hmem => hsamples k r rand16 (List.mem_cons_of_mem _ hmem))

/-- C5, as stated, fails: the document exported after the analysis of
`bank.apk` that nothing interrupts, with the sample `0.3`, has the two fields
`score` and `indicators` and no `artifactId`, so its fields are not the five
the specification lists. -/
theorem export_lacks_artifactId :
    ∃ doc, btnExportClick
          (run id id loadedWorld (analysisEvents (3 / 10) "0.8f3a9c2e1b".toList)).page
        = .ok doc
      ∧ doc.keys = ["score".toList, "indicators".toList]
      ∧ "artifactId".toList ∈ specResultFields
      ∧ "artifactId".toList ∉ doc.keys
      ∧ ¬ (∀ k, k ∈ doc.keys ↔ k ∈ specResultFields) := by
  refine ⟨resultJson { score := 30, indicators := indicatorsFor 30 }, ?_, rfl, by decide,
    by decide, ?_⟩
  · unfold btnExportClick
    rw [(run_analysisEvents id id loadedWorld bankApk (3 / 10) _ rfl rfl).1,
      sampleScore_exact_three_tenths]
  · intro hall
    exact absurd ((hall "artifactId".toList).2 (by decide)) (by decide)

/-- C5, amended: for every analysis result the analyze handler stores (the
sample `r` in `[0, 1)`, whatever the page it resumes on), the exported
document is an object with exactly the two fields `score` (an integer from 0
to 100) and `indicators`, an array of three objects each with exactly the
fields `name` (string), `value` (string), `weight` (integer) and `status` (the
string Triggered or OK); and every document the export handler produces after
any sequence of events, from a page with no result stored, is of that form. -/
theorem export_document_shape (digest : List Nat → List Nat) (rnd : ℚ → ℚ)
    (hmono : Monotone rnd) (h0 : rnd 0 = 0) (h100 : rnd 100 = 100)
    (p : Page) (r : ℚ) (hr0 : 0 ≤ r) (hr1 : r < 1) (rand16 : Str)
    (w : World) (hstart : w.page.analysisResult = none) (events : List Event)
    (hsamples : ∀ k x text, Event.timeout k x text ∈ events → 0 ≤ x ∧ x < 1) :
    (∃ (score : Int) (items : List Json),
      btnExportClick (btnAnalyzeResume rnd p 100 r rand16).1
        = .ok (.obj [("score".toList, .num score), ("indicators".toList, .arr items)])
      ∧ 0 ≤ score ∧ score ≤ 100
      ∧ items.length = 3
      ∧ ∀ j ∈ items,
          j.keys = ["name".toList, "value".toList, "weight".toList, "status".toList]
          ∧ ∃ (n v : Str) (wt : Int) (st : Str),
              j = .obj [("name".toList, .str n), ("value".toList, .str v),
                ("weight".toList, .num wt), ("status".toList, .str st)]
              ∧ (st = "Triggered".toList ∨ st = "OK".toList))
    ∧ (∀ doc, btnExportClick (run digest rnd w events).page = .ok doc →
        ∃ (score : Int) (items : List Json),
          doc = .obj [("score".toList, .num score), ("indicators".toList, .arr items)]
          ∧ 0 ≤ score ∧ score ≤ 100
          ∧ items.length = 3
          ∧ ∀ j ∈ items,
              j.keys = ["name".toList, "value".toList, "weight".toList, "status".toList]
              ∧ ∃ (n v : Str) (wt : Int) (st : Str),
                  j = .obj [("name".toList, .str n), ("value".toList, .str v),
                    ("weight".toList, .num wt), ("status".toList, .str st)]
                  ∧ (st = "Triggered".toList ∨ st = "OK".toList)) := by
  constructor
  · obtain ⟨hlo, hhi⟩ : 0 ≤ sampleScore rnd r ∧ sampleScore rnd r ≤ 100 := by
      obtain ⟨hlo, hhi⟩ := rounded_product_bounds rnd hmono h0 h100 r hr0 hr1
      exact floor_in_range _ hlo hhi
    refine ⟨sampleScore rnd r, (indicatorsFor (sampleScore rnd r)).map indicatorJson, ?_,
      hlo, hhi, rfl, indicatorsFor_json _⟩
    have hlast : (btnAnalyzeResume rnd p 100 r rand16).1
        = (analyzeWith (setProgress p 100) (sampleScore rnd r) rand16).1 := by
      simp [btnAnalyzeResume]
    unfold btnExportClick
    rw [hlast, analyzeWith_analysisResult]
    rfl
  · intro doc hdoc
    unfold btnExportClick at hdoc
    cases hres : (run digest rnd w events).page.analysisResult with
    | none =>
      rw [hres] at hdoc
      cases hdoc
    | some res =>
      rw [hres] at hdoc
      obtain ⟨hlo, hhi, hind⟩ := run_result_in_range digest rnd hmono h0 h100 events w
        (fun res' h' => by rw [hstart] at h'; cases h') hsamples res hres
      refine ⟨res.score, (indicatorsFor res.score).map indicatorJson, ?_, hlo, hhi, rfl,
        indicatorsFor_json _⟩
      cases hdoc
      unfold resultJson
      rw [hind]

theorem export_document_shape_witness :
    Monotone (id : ℚ → ℚ) ∧ (id (0 : ℚ) = 0) ∧ (id (100 : ℚ) = 100)
    ∧ (0 : ℚ) ≤ 3 / 4 ∧ (3 / 4 : ℚ) < 1
    ∧ loadedWorld.page.analysisResult = none
    ∧ (∀ k x text, Event.timeout k x text ∈ analysisEvents (3 / 4) "0.8f3a9c2e1b".toList →
        0 ≤ x ∧ x < 1)
    ∧ (∃ (score : Int) (items : List Json),
        btnExportClick (btnAnalyzeResume id loadedPage 100 (3 / 4) "0.8f3a9c2e1b".toList).1
          = .ok (.obj [("score".toList, .num score), ("indicators".toList, .arr items)])
        ∧ 0 ≤ score ∧ score ≤ 100 ∧ items.length = 3)
    ∧ (∃ (score : Int) (items : List Json),
        btnExportClick
            (run id id loadedWorld (analysisEvents (3 / 4) "0.8f3a9c2e1b".toList)).page
          = .ok (.obj [("score".toList, .num score), ("indicators".toList, .arr items)])
        ∧ 0 ≤ score ∧ score ≤ 100 ∧ items.length = 3) :=
  have hsamples : ∀ k x text,
      Event.timeout k x text ∈ analysisEvents (3 / 4) "0.8f3a9c2e1b".toList →
        0 ≤ x ∧ x < 1 := by
    intro k x text hmem
    simp only [analysisEvents, List.mem_cons, List.mem_replicate, Event.timeout.injEq,
      false_or, reduceCtorEq] at hmem
    obtain ⟨_, _, hx, _⟩ := hmem
    rw [hx]
    norm_num
  have hshape := export_document_shape id id monotone_id rfl rfl loadedPage (3 / 4)
    (by norm_num) (by norm_num) "0.8f3a9c2e1b".toList loadedWorld rfl
    (analysisEvents (3 / 4) "0.8f3a9c2e1b".toList) hsamples
  have hstored : btnExportClick
      (run id id loadedWorld (analysisEvents (3 / 4) "0.8f3a9c2e1b".toList)).page
        = .ok (resultJson { score := sampleScore id (3 / 4),
                             indicators := indicatorsFor (sampleScore id (3 / 4)) }) := by
    unfold btnExportClick
    rw [(run_analysisEvents id id loadedWorld bankApk (3 / 4) _ rfl rfl).1]
  ⟨monotone_id, rfl, rfl, by norm_num, by norm_num, rfl, hsamples,
    (let ⟨score, items, h₁, h₂, h₃, h₄, _⟩ := hshape.1
     ⟨score, items, h₁, h₂, h₃, h₄⟩),
    (let ⟨score, items, h₁, h₂, h₃, h₄, _⟩ := hshape.2 _ hstored
     ⟨score, items, hstored.trans (congrArg _ h₁), h₂, h₃, h₄⟩)⟩

/-! ## The feed -/

theorem runFeed_feedTable (calls : List (Str × Int × Str)) (p : Page) :
    (runFeed p calls).feedTable
      = (calls.map (fun c => feedRow c.1 c.2.1 c.2.2)).reverse ++ p.feedTable := by
  unfold runFeed
  induction calls generalizing p with
  | nil => rfl
  | cons c calls ih =>
    rw [List.foldl_cons, ih, updateFeed_feedTable]
    simp

/-- C7: on the page with `bank.apk` selected and an empty feed, a click on
Analyze followed by a click on Reset while the progress bar runs ends, after
the eleven timers, with the result of the analysis (score 75) stored and
shown, an uncaught TypeError from `selectedFile.name`, and no row in the feed:
one analysis, no row.  The same analysis without the click on Reset puts its
one row in the feed. -/
theorem reset_during_analysis_adds_no_row :
    loadedWorld.page.feedTable = []
    ∧ (run id id loadedWorld
          (resetDuringAnalysis (3 / 4) "0.8f3a9c2e1b".toList)).page.analysisResult
        = some { score := 75, indicators := indicatorsFor 75 }
    ∧ (run id id loadedWorld
          (resetDuringAnalysis (3 / 4) "0.8f3a9c2e1b".toList)).page.riskScoreText
        = numberToString 75
    ∧ (run id id loadedWorld
          (resetDuringAnalysis (3 / 4) "0.8f3a9c2e1b".toList)).page.riskSummaryText
        = "Suspicious: investigate further.".toList
    ∧ (run id id loadedWorld (resetDuringAnalysis (3 / 4) "0.8f3a9c2e1b".toList)).notices
        = ["TypeError".toList]
    ∧ (run id id loadedWorld
          (resetDuringAnalysis (3 / 4) "0.8f3a9c2e1b".toList)).page.feedTable = []
    ∧ (run id id loadedWorld (analysisEvents (3 / 4) "0.8f3a9c2e1b".toList)).page.feedTable
        = [feedRow bankApk.name 75 "0.8f3a9c2e1b".toList] := by
  have hreset := run_resetDuringAnalysis id id loadedWorld bankApk (3 / 4)
    "0.8f3a9c2e1b".toList rfl rfl
  have hplain := run_analysisEvents id id loadedWorld bankApk (3 / 4)
    "0.8f3a9c2e1b".toList rfl rfl
  rw [sampleScore_exact_three_quarters] at hreset hplain
  refine ⟨rfl, hreset.1, hreset.2.2.2.1, ?_, hreset.2.2.2.2, hreset.2.1, hplain.2.1⟩
  rw [hreset.2.2.1]
  decide

/-! ## File handling -/

theorem endsWith_iff (s suffix : Str) :
    endsWith s suffix = true ↔ ∃ stem, s = stem ++ suffix := by
  unfold endsWith
  rw [List.isSuffixOf_iff_suffix]
  constructor
  · rintro ⟨t, ht⟩
    exact ⟨t, ht.symm⟩
  · rintro ⟨t, ht⟩
    exact ⟨t, ht.symm⟩

theorem handleFile_pieces (digest : List Nat → List Nat) (p : Page) (file : File) :
    (handleFile digest p file).2 = (handleFileBegin p file).2
    ∧ ((handleFileBegin p file).2 = none →
        (handleFile digest p file).1
          = handleFileResume digest (handleFileBegin p file).1 file)
    ∧ ((handleFileBegin p file).2 ≠ none →
        (handleFile digest p file).1 = p ∧ (handleFileBegin p file).1 = p) := by
  unfold handleFile handleFileBegin handleFileResume
  generalize endsWith file.name ".apk".toList = accepted
  cases accepted <;> simp

theorem step_fileChosen_rejected (digest : List Nat → List Nat) (rnd : ℚ → ℚ) (w : World)
    (file : File) (hno : ¬ ∃ stem, file.name = stem ++ ".apk".toList) :
    step digest rnd w (.fileChosen file)
      = { w with notices := "Only .apk files allowed (demo).".toList :: w.notices } := by
  rw [← endsWith_iff] at hno
  have hbegin : handleFileBegin w.page file
      = (w.page, some "Only .apk files allowed (demo).".toList) := by
    have hfalse : endsWith file.name ".apk".toList = false := Bool.eq_false_iff.2 hno
    unfold handleFileBegin
    rw [hfalse]
    rfl
  simp only [step, hbegin]

/-- C8: `handleFile` accepts a file (shows no alert, makes it the selected
file and displays its name) exactly when its name is some stem followed by
`.apk`; for any other name it shows the alert and the page, with
`selectedFile`, the displayed name, the displayed hash and `analysisResult`,
is the same after the call as before it. -/
theorem handleFile_accepts_apk_only (digest : List Nat → List Nat) (p : Page) (file : File) :
    ((handleFile digest p file).2 = none ↔ ∃ stem, file.name = stem ++ ".apk".toList)
    ∧ ((∃ stem, file.name = stem ++ ".apk".toList) →
        (handleFile digest p file).1.selectedFile = some file
        ∧ (handleFile digest p file).1.fileNameText = file.name
        ∧ (handleFile digest p file).1.fileHashText
            = substring (sha256 digest file.content) 0 32 ++ "…".toList
        ∧ (handleFile digest p file).1.analysisResult = p.analysisResult)
    ∧ ((¬ ∃ stem, file.name = stem ++ ".apk".toList) →
        (handleFile digest p file).2 = some "Only .apk files allowed (demo).".toList
        ∧ (handleFile digest p file).1 = p
        ∧ (handleFile digest p file).1.selectedFile = p.selectedFile
        ∧ (handleFile digest p file).1.fileNameText = p.fileNameText
        ∧ (handleFile digest p file).1.fileHashText = p.fileHashText
        ∧ (handleFile digest p file).1.analysisResult = p.analysisResult) := by
  rw [← endsWith_iff]
  unfold handleFile
  generalize endsWith file.name ".apk".toList = accepted
  cases accepted <;> simp

theorem handleFile_accepts_apk_only_witness :
    (¬ ∃ stem, "notes.txt".toList = stem ++ ".apk".toList)
    ∧ (handleFile id loadedPage ⟨"notes.txt".toList, [1, 2, 3]⟩).2
        = some "Only .apk files allowed (demo).".toList
    ∧ (handleFile id loadedPage ⟨"notes.txt".toList, [1, 2, 3]⟩).1 = loadedPage :=
  have hno : ¬ ∃ stem, "notes.txt".toList = stem ++ ".apk".toList := by
    rw [← endsWith_iff]; decide
  ⟨hno,
    ((handleFile_accepts_apk_only id loadedPage ⟨"notes.txt".toList, [1, 2, 3]⟩).2.2 hno).1,
    ((handleFile_accepts_apk_only id loadedPage ⟨"notes.txt".toList, [1, 2, 3]⟩).2.2 hno).2.1⟩

/-! ## Package names -/

theorem replace_apk_trailing_only (stem : Str)
    (h : ∀ k, k < stem.length →
      ".apk".toList.isPrefixOf (stem.drop k ++ ".apk".toList) = false) :
    replace ".apk".toList [] (stem ++ ".apk".toList) = stem := by
  induction stem with
  | nil => decide
  | cons c t ih =>
    have h0 := h 0 (by simp)
    rw [List.drop_zero] at h0
    rw [List.cons_append] at h0 ⊢
    rw [replace, h0]
    rw [ih (fun k hk => by simpa using h (k + 1) (by simpa using hk))]
    simp

/-- C10: for `bank.release.apk` the package cell is the name without its
trailing `.apk`, but for the accepted
name `my.apk.v2.apk` the package cell of the feed row is `my.v2.apk`, whereas
the name without its trailing `.apk` is `my.apk.v2`. -/
theorem package_name_drops_first_apk :
    (handleFile id blankPage ⟨"bank.release.apk".toList, [80, 75]⟩).2 = none
    ∧ (feedRow "bank.release.apk".toList 10 "0.8f3a9c2e1b".toList).pkg
        = dropApkExtension "bank.release.apk".toList
    ∧ (handleFile id blankPage ⟨"my.apk.v2.apk".toList, [80, 75]⟩).2 = none
    ∧ (feedRow "my.apk.v2.apk".toList 10 "0.8f3a9c2e1b".toList).pkg = "my.v2.apk".toList
    ∧ dropApkExtension "my.apk.v2.apk".toList = "my.apk.v2".toList
    ∧ (feedRow "my.apk.v2.apk".toList 10 "0.8f3a9c2e1b".toList).pkg
        ≠ dropApkExtension "my.apk.v2.apk".toList := by
  refine ⟨by decide, by decide, by decide, by decide, by decide, by decide⟩

/-! ## Decimal rendering and `parseInt` -/

theorem decimal_chars (n : Nat) :
    ∀ c ∈ toStringRadix 10 n, ∃ d, d < 10 ∧ c = Nat.digitChar d := by
  induction n using Nat.strong_induction_on with
  | _ n ih =>
    by_cases h : n < 10
    · rw [toStringRadix_lt 10 n h]
      intro c hc
      rw [List.mem_singleton] at hc
      exact ⟨n, h, hc⟩
    · rw [toStringRadix_ge 10 n (by omega) (by omega)]
      intro c hc
      rw [List.mem_append, List.mem_singleton] at hc
      rcases hc with hc | hc
      · exact ih (n / 10) (Nat.div_lt_self (by omega) (by omega)) c hc
      · exact ⟨n % 10, Nat.mod_lt _ (by omega), hc⟩

theorem decimal_head (n : Nat) :
    ∃ d t, d < 10 ∧ toStringRadix 10 n = Nat.digitChar d :: t := by
  induction n using Nat.strong_induction_on with
  | _ n ih =>
    by_cases h : n < 10
    · exact ⟨n, [], h, toStringRadix_lt 10 n h⟩
    · obtain ⟨d, t, hd, ht⟩ := ih (n / 10) (Nat.div_lt_self (by omega) (by omega))
      refine ⟨d, t ++ [Nat.digitChar (n % 10)], hd, ?_⟩
      rw [toStringRadix_ge 10 n (by omega) (by omega), ht, List.cons_append]

theorem radixDigit_digitChar : ∀ d, d < 10 → radixDigit 10 (Nat.digitChar d) = some d := by
  decide

theorem digitChar_plain : ∀ d, d < 10 →
    isWhiteSpace (Nat.digitChar d) = false ∧ Nat.digitChar d ≠ '-' ∧ Nat.digitChar d ≠ '+'
    ∧ Nat.digitChar d ≠ 'x' ∧ Nat.digitChar d ≠ 'X' ∧ Nat.digitChar d ≠ '/'
    ∧ Nat.digitChar d ≠ ' ' := by
  decide

theorem leadingDigits_decimal (n : Nat) :
    ∃ ds : List Nat, ds ≠ []
      ∧ (∀ rest, leadingDigits 10 (toStringRadix 10 n ++ rest) = ds ++ leadingDigits 10 rest)
      ∧ List.foldl (fun (acc : Int) (x : Nat) => acc * 10 + (x : Int)) 0 ds = (n : Int) := by
  induction n using Nat.strong_induction_on with
  | _ n ih =>
    by_cases h : n < 10
    · refine ⟨[n], by simp, ?_, by simp⟩
      intro rest
      rw [toStringRadix_lt 10 n h, List.singleton_append, leadingDigits,
        radixDigit_digitChar n h, List.singleton_append]
    · obtain ⟨ds, hne, hread, hval⟩ := ih (n / 10) (Nat.div_lt_self (by omega) (by omega))
      refine ⟨ds ++ [n % 10], by simp, ?_, ?_⟩
      · intro rest
        rw [toStringRadix_ge 10 n (by omega) (by omega), List.append_assoc, hread,
          List.singleton_append, leadingDigits,
          radixDigit_digitChar (n % 10) (Nat.mod_lt _ (by omega)), List.append_assoc,
          List.singleton_append]
      · rw [List.foldl_append, hval]
        simp only [List.foldl_cons, List.foldl_nil]
        omega

theorem char_le_iff (a b : Char) : a ≤ b ↔ a.toNat ≤ b.toNat := Iff.rfl

theorem isDigit_false_iff (c : Char) : c.isDigit = false ↔ (c.toNat < 48 ∨ 57 < c.toNat) := by
  have h₁ : (c.val ≥ 48) ↔ 48 ≤ c.toNat := Iff.rfl
  have h₂ : (c.val ≤ 57) ↔ c.toNat ≤ 57 := Iff.rfl
  simp only [Char.isDigit, Bool.and_eq_false_iff, decide_eq_false_iff_not, h₁, h₂]
  omega

theorem radixDigit_of_not_digit (c : Char) (h : c.isDigit = false) : radixDigit 10 c = none := by
  rw [isDigit_false_iff] at h
  unfold radixDigit digitValue
  simp only [char_le_iff]
  have e0 : '0'.toNat = 48 := rfl
  have e9 : '9'.toNat = 57 := rfl
  have ea : 'a'.toNat = 97 := rfl
  have ez : 'z'.toNat = 122 := rfl
  have eA : 'A'.toNat = 65 := rfl
  have eZ : 'Z'.toNat = 90 := rfl
  rw [e0, e9, ea, ez, eA, eZ]
  split_ifs with h1 h2 h3
  · omega
  · simp only; rw [if_neg (by omega)]
  · simp only; rw [if_neg (by omega)]
  · rfl

theorem stripRadixPrefix_plain (s : Str) (h : ∀ c ∈ s, c ≠ 'x' ∧ c ≠ 'X') :
    stripRadixPrefix s = (10, s) := by
  match s with
  | [] => rfl
  | [_] => rfl
  | c₁ :: c₂ :: t =>
    have h2 := h c₂ (by simp)
    simp [stripRadixPrefix, h2.1, h2.2]

theorem stripRadixPrefix_no_zero (s : Str) (h : ∀ c ∈ s, c ≠ '0') :
    stripRadixPrefix s = (10, s) := by
  match s with
  | [] => rfl
  | [_] => rfl
  | c₁ :: c₂ :: t =>
    have h1 := h c₁ (by simp)
    simp [stripRadixPrefix, h1]

theorem stripSign_subset (s : Str) : ∀ c ∈ (stripSign s).2, c ∈ s := by
  match s with
  | [] => simp [stripSign]
  | c :: t =>
    intro x hx
    simp only [stripSign] at hx
    split_ifs at hx with h1 h2
    · exact List.mem_cons_of_mem _ hx
    · exact List.mem_cons_of_mem _ hx
    · exact hx

theorem leadingDigits_of_not_digit (s : Str) (h : ∀ c ∈ s, c.isDigit = false) :
    leadingDigits 10 s = [] := by
  match s with
  | [] => rfl
  | c :: t => rw [leadingDigits, radixDigit_of_not_digit c (h c (by simp))]

theorem parseInt_of_no_digit (s : Str) (h : ∀ c ∈ s, c.isDigit = false) : parseInt s = none := by
  have hsub : ∀ c ∈ (stripSign (s.dropWhile isWhiteSpace)).2, c.isDigit = false :=
    fun c hc => h c (List.dropWhile_subset _ (stripSign_subset _ c hc))
  unfold parseInt
  simp only
  rw [stripRadixPrefix_no_zero _ (fun c hc h0 => by
    have := hsub c hc
    rw [h0] at this
    exact absurd this (by decide))]
  simp only
  rw [leadingDigits_of_not_digit _ hsub]

theorem parseInt_space (s : Str) : parseInt (' ' :: s) = parseInt s := by
  have hsp : isWhiteSpace ' ' = true := by decide
  unfold parseInt
  rw [List.dropWhile_cons, if_pos hsp]

theorem parseInt_decimal (n : Nat) (rest : Str) (hrest : ∀ c ∈ rest, c = ' ') :
    parseInt (toStringRadix 10 n ++ rest) = some (n : Int) := by
  obtain ⟨d, t, hd, ht⟩ := decimal_head n
  obtain ⟨hws, hminus, hplus, _, _, _, _⟩ := digitChar_plain d hd
  obtain ⟨ds, hne, hread, hval⟩ := leadingDigits_decimal n
  have hdrop : (toStringRadix 10 n ++ rest).dropWhile isWhiteSpace
      = toStringRadix 10 n ++ rest := by
    rw [ht, List.cons_append, List.dropWhile_cons, hws]
    simp
  have hsign : stripSign (toStringRadix 10 n ++ rest) = (false, toStringRadix 10 n ++ rest) := by
    rw [ht, List.cons_append, stripSign, if_neg hminus, if_neg hplus]
  have hradix : stripRadixPrefix (toStringRadix 10 n ++ rest)
      = (10, toStringRadix 10 n ++ rest) := by
    apply stripRadixPrefix_plain
    intro c hc
    rw [List.mem_append] at hc
    rcases hc with hc | hc
    · obtain ⟨e, he, rfl⟩ := decimal_chars n c hc
      obtain ⟨_, _, _, hx, hX, _, _⟩ := digitChar_plain e he
      exact ⟨hx, hX⟩
    · rw [hrest c hc]
      decide
  have hrest0 : leadingDigits 10 rest = [] := by
    match rest, hrest with
    | [], _ => rfl
    | c :: r, hr =>
      rw [hr c (by simp), leadingDigits]
      rfl
  obtain ⟨d₀, ds₀, rfl⟩ := List.exists_cons_of_ne_nil hne
  unfold parseInt
  rw [hdrop, hsign]
  simp only
  rw [hradix]
  simp only
  rw [hread, hrest0, List.append_nil]
  simp only [Bool.false_eq_true, if_false, Nat.cast_ofNat]
  rw [hval]

/-! ## The distribution text -/

theorem split_of_no_sep (sep : Char) (s : Str) (h : sep ∉ s) : split sep s = [s] := by
  induction s with
  | nil => rfl
  | cons c t ih =>
    have hc : c ≠ sep := fun e => h (by simp [e])
    have ht : sep ∉ t := fun e => h (List.mem_cons_of_mem _ e)
    rw [split, if_neg hc, ih ht]

theorem split_append_sep (sep : Char) (a b : Str) (h : sep ∉ a) :
    split sep (a ++ sep :: b) = a :: split sep b := by
  induction a with
  | nil => rw [List.nil_append, split, if_pos rfl]
  | cons c t ih =>
    have hc : c ≠ sep := fun e => h (by simp [e])
    have ht : sep ∉ t := fun e => h (List.mem_cons_of_mem _ e)
    rw [List.cons_append, split, if_neg hc, ih ht]

theorem split_parts_subset (sep : Char) (s : Str) :
    ∀ part ∈ split sep s, ∀ c ∈ part, c ∈ s := by
  induction s with
  | nil =>
    intro part hpart c hc
    simp only [split, List.mem_singleton] at hpart
    rw [hpart] at hc
    exact hc
  | cons x t ih =>
    intro part hpart c hc
    rw [split] at hpart
    split_ifs at hpart with hx
    · rw [List.mem_cons] at hpart
      rcases hpart with rfl | hpart
      · exact absurd hc (List.not_mem_nil _)
      · exact List.mem_cons_of_mem _ (ih part hpart c hc)
    · match hsp : split sep t, hpart with
      | [], hpart =>
        simp only [List.mem_singleton] at hpart
        rw [hpart, List.mem_singleton] at hc
        rw [hc]
        exact List.mem_cons_self _ _
      | q :: qs, hpart =>
        simp only [List.mem_cons] at hpart
        rcases hpart with rfl | hpart
        · rw [List.mem_cons] at hc
          rcases hc with rfl | hc
          · exact List.mem_cons_self _ _
          · exact List.mem_cons_of_mem _ (ih q (by rw [hsp]; exact List.mem_cons_self _ _) c hc)
        · exact List.mem_cons_of_mem _
            (ih part (by rw [hsp]; exact List.mem_cons_of_mem _ hpart) c hc)

theorem numberToString_natCast (n : Nat) : numberToString (n : Int) = toStringRadix 10 n := by
  unfold numberToString
  rw [if_neg (by omega)]
  simp

theorem orZero_some (v : Int) : orZero (some v) = v := by
  by_cases h : v = 0
  · simp [orZero, h]
  · simp [orZero, h]

theorem distCounts_rendered (a b : Nat) :
    distCounts (numberToString (a : Int) ++ " / ".toList ++ numberToString (b : Int))
      = ((a : Int), (b : Int)) := by
  have hslash : ∀ n : Nat, '/' ∉ toStringRadix 10 n := by
    intro n hmem
    obtain ⟨d, hd, he⟩ := decimal_chars n _ hmem
    exact (digitChar_plain d hd).2.2.2.2.2.1 he.symm
  have hshape : numberToString (a : Int) ++ " / ".toList ++ numberToString (b : Int)
      = (toStringRadix 10 a ++ [' ']) ++ '/' :: (' ' :: toStringRadix 10 b) := by
    rw [numberToString_natCast, numberToString_natCast]
    simp
  have hleft : '/' ∉ toStringRadix 10 a ++ [' '] := by
    intro hmem
    rw [List.mem_append, List.mem_singleton] at hmem
    rcases hmem with hmem | hmem
    · exact hslash a hmem
    · exact absurd hmem (by decide)
  have hright : '/' ∉ ' ' :: toStringRadix 10 b := by
    intro hmem
    rw [List.mem_cons] at hmem
    rcases hmem with hmem | hmem
    · exact absurd hmem (by decide)
    · exact hslash b hmem
  unfold distCounts
  simp only
  rw [hshape, split_append_sep _ _ _ hleft, split_of_no_sep _ _ hright]
  have h0 : parseInt (toStringRadix 10 a ++ [' ']) = some (a : Int) :=
    parseInt_decimal a [' '] (by simp)
  have h1 : parseInt (' ' :: toStringRadix 10 b) = some (b : Int) := by
    rw [parseInt_space]
    simpa using parseInt_decimal b [] (by simp)
  simp [argToString, h0, h1, orZero_some]

theorem distCounts_of_no_digit (text : Str) (h : ∀ c ∈ text, c.isDigit = false) :
    distCounts text = (0, 0) := by
  have hpart : ∀ o : Option Str, (∀ part, o = some part → part ∈ split '/' text) →
      parseInt (argToString o) = none := by
    intro o ho
    apply parseInt_of_no_digit
    cases o with
    | none => decide
    | some part =>
      intro c hc
      exact h c (split_parts_subset '/' text part (ho part rfl) c hc)
  unfold distCounts
  simp only
  rw [hpart _ (fun part hp => List.getElem?_mem hp),
    hpart _ (fun part hp => List.getElem?_mem hp)]
  rfl

theorem updateFeed_distCounts (p : Page) (pkgName : Str) (score : Int) (rand16 : Str)
    (a b : Nat) (h : distCounts p.distText = ((a : Int), (b : Int))) :
    ∃ a' b' : Nat,
      distCounts (updateFeed p pkgName score rand16).distText = ((a' : Int), (b' : Int))
      ∧ a' + b' = a + b + 1 := by
  have hd : (updateFeed p pkgName score rand16).distText
      = numberToString (if score ≥ 60 then (distCounts p.distText).1
          else (distCounts p.distText).1 + 1)
        ++ " / ".toList
        ++ numberToString (if score ≥ 60 then (distCounts p.distText).2 + 1
          else (distCounts p.distText).2) := rfl
  rw [hd, h]
  by_cases hs : score ≥ 60
  · refine ⟨a, b + 1, ?_, by omega⟩
    rw [if_pos hs, if_pos hs]
    exact_mod_cast distCounts_rendered a (b + 1)
  · refine ⟨a + 1, b, ?_, by omega⟩
    rw [if_neg hs, if_neg hs]
    exact_mod_cast distCounts_rendered (a + 1) b

theorem runFeed_distCounts (calls : List (Str × Int × Str)) :
    ∀ (p : Page) (a b : Nat), distCounts p.distText = ((a : Int), (b : Int)) →
      ∃ a' b' : Nat, distCounts (runFeed p calls).distText = ((a' : Int), (b' : Int))
        ∧ a' + b' = a + b + calls.length := by
  induction calls with
  | nil =>
    intro p a b h
    exact ⟨a, b, h, by simp⟩
  | cons c calls ih =>
    intro p a b h
    obtain ⟨a₁, b₁, h₁, hsum₁⟩ := updateFeed_distCounts p c.1 c.2.1 c.2.2 a b h
    obtain ⟨a₂, b₂, h₂, hsum₂⟩ := ih (updateFeed p c.1 c.2.1 c.2.2) a₁ b₁ h₁
    refine ⟨a₂, b₂, h₂, ?_⟩
    rw [List.length_cons]
    omega

/-- C2: starting from an empty feed and a distribution text that holds no
digit or reads `0 / 0`, after any sequence of `updateFeed` calls with
arbitrary integer scores the two counts read back from the distribution text
are non-negative and sum to the number of calls, which is the number of rows
in the feed. -/
theorem distribution_counts_sum_to_feed_size (p : Page) (hfeed : p.feedTable = [])
    (hdist : (∀ c ∈ p.distText, c.isDigit = false) ∨ p.distText = "0 / 0".toList)
    (calls : List (Str × Int × Str)) :
    (distCounts (runFeed p calls).distText).1 + (distCounts (runFeed p calls).distText).2
        = (calls.length : Int)
    ∧ 0 ≤ (distCounts (runFeed p calls).distText).1
    ∧ 0 ≤ (distCounts (runFeed p calls).distText).2
    ∧ (runFeed p calls).feedTable.length = calls.length := by
  have hstart : distCounts p.distText = (((0 : Nat) : Int), ((0 : Nat) : Int)) := by
    rcases hdist with hnone | hzero
    · exact distCounts_of_no_digit _ hnone
    · rw [hzero]
      decide
  obtain ⟨a, b, hab, hsum⟩ := runFeed_distCounts calls p 0 0 hstart
  rw [hab, runFeed_feedTable, hfeed]
  refine ⟨?_, by simp, by simp, by simp⟩
  simp only
  omega

theorem distribution_counts_sum_to_feed_size_witness :
    ({ blankPage with distText := "0 / 0".toList } : Page).feedTable = []
    ∧ (distCounts (runFeed { blankPage with distText := "0 / 0".toList }
          [("bank.apk".toList, 30, "0.8f3a9c2e1b".toList),
            ("pay.apk".toList, 91, "0.41c07d9a6e".toList),
            ("wallet.apk".toList, 60, "0.d2b81f0357".toList)]).distText).1
        + (distCounts (runFeed { blankPage with distText := "0 / 0".toList }
          [("bank.apk".toList, 30, "0.8f3a9c2e1b".toList),
            ("pay.apk".toList, 91, "0.41c07d9a6e".toList),
            ("wallet.apk".toList, 60, "0.d2b81f0357".toList)]).distText).2
        = (3 : Int)
    ∧ (runFeed { blankPage with distText := "0 / 0".toList }
          [("bank.apk".toList, 30, "0.8f3a9c2e1b".toList),
            ("pay.apk".toList, 91, "0.41c07d9a6e".toList),
            ("wallet.apk".toList, 60, "0.d2b81f0357".toList)]).feedTable.length = 3 :=
  have hrun := distribution_counts_sum_to_feed_size
    { blankPage with distText := "0 / 0".toList } rfl (Or.inr rfl)
    [("bank.apk".toList, 30, "0.8f3a9c2e1b".toList),
      ("pay.apk".toList, 91, "0.41c07d9a6e".toList),
      ("wallet.apk".toList, 60, "0.d2b81f0357".toList)]
  ⟨rfl, hrun.1, hrun.2.2.2⟩

end BankSheild
